import Mathlib

/-!
# caddyfile-watch: a shallow embedding of `main.go` and `reload_posix.go`

The package keeps its state in package-level variables (`active`, `watcher`,
`importedFiles`, `reportImportError`, `debouncer`).  Here they are the fields of
one `State` record that every function takes and returns.  Calls into other
packages (`path/filepath`, `fsnotify`, `flag`, the Caddyfile loaders and the
modified `Parse`) are the fields of an `Env` record, so every theorem holds for
whatever those calls return.  Observable actions (printing, watcher calls, the
goroutine, the timer, the signal) are appended to `State.log`.
-/

namespace CaddyfileWatch

/-! ## Data model -/

/-- A Go `error` value, identified by its message (`err.Error()`). -/
structure GoError where
  msg : String
deriving DecidableEq

/-- The element type of `importedFiles` (`struct { Dir string; Base string }`). -/
structure ImportedFile where
  Dir : String
  Base : String
deriving DecidableEq

/-- A `caddy.Input`: what `Path()`, `Body()` and `ServerType()` return. -/
structure Input where
  path : String
  body : String
  serverType : String
deriving DecidableEq

/-- The value `caddy.CaddyfileInput{}`. -/
def emptyInput : Input := ⟨"", "", ""⟩

/-- An `*fsnotify.Watcher`: `id` is the identity of the object, `dirs` the
directories added to it so far (in call order), `closed` whether `Close` was called. -/
structure Watcher where
  id : Nat
  dirs : List String
  closed : Bool
deriving DecidableEq

/-- Observable actions of the package, in the order they happen. -/
inductive Effect where
  | println (line : String)
  | watcherClose (id : Nat)
  | newWatcher (id : Nat)
  | watcherAdd (id : Nat) (dir : String)
  | spawnLoop
  | afterFunc
  | signalUSR1
deriving DecidableEq

/-- The package-level struct `debouncer` (the mutex is not a field: every function
below is one atomic step). -/
structure Debouncer where
  Blind : Bool
  Reason : String
deriving DecidableEq

/-- The package-level variables, plus `conf` (declared in the loader file of the
package), the number of outstanding `time.AfterFunc` timers, the identity the next
watcher will get, and the log of observable actions. -/
structure State where
  active : Bool
  conf : String
  watcher : Option Watcher
  (importedFiles : List ImportedFile)
  reportImportError : Option GoError
  debouncer : Debouncer
  timers : Nat
  nextWatcherId : Nat
  log : List Effect
deriving DecidableEq

/-- Results of the calls that leave the package.
* `abs`, `dir`, `base`, `join`: `filepath.Abs`, `filepath.Dir`, `filepath.Base`, `filepath.Join`;
* `confFlag`: `flag.Lookup("conf").Value.String()`;
* `confLoader conf serverType`, `defaultLoader serverType`: the two Caddyfile loaders
  (declared in another file of the package), returning `(input, err)`;
* `parse path body`: the modified `Parse`, which reports every file it opens through
  `reportImportedFile` and then returns its error: the paths it reports, in order,
  and the error;
* `newWatcher`: the error of `fsnotify.NewWatcher()`;
* `add dirs dir`: the error of `watcher.Add(dir)` on a watcher that already holds `dirs`. -/
structure Env where
  abs : String → Except GoError String
  dir : String → String
  base : String → String
  join : String → String → String
  confFlag : String
  confLoader : String → String → Option Input × Option GoError
  defaultLoader : String → Option Input × Option GoError
  parse : String → String → List String × Option GoError
  newWatcher : Option GoError
  add : List String → String → Option GoError

/-- The state at program start: all package-level variables have their zero value. -/
def initState (active : Bool) : State :=
  { active := active, conf := "", watcher := none, importedFiles := [],
    reportImportError := none, debouncer := ⟨false, ""⟩, timers := 0,
    nextWatcherId := 0, log := [] }

/-- `fmt.Println(line)`. -/
def println (s : State) (line : String) : State :=
  { s with log := s.log ++ [Effect.println line] }

/-! ## `reportImportedFile` (main.go 190-209) -/

/-- The loop `for _, i := range importedFiles { if i.Dir == dir && i.Base == base ... }`
as a test: is some entry equal to `(dir, base)`? -/
def hasFile (files : List ImportedFile) (dir base : String) : Bool :=
  match files with
  | [] => false
  | i :: rest => if i.Dir = dir ∧ i.Base = base then true else hasFile rest dir base

/-- `reportImportedFile(filename)`. -/
def reportImportedFile (env : Env) (s : State) (filename : String) : State :=
  match env.abs filename with
  | .error err => { s with reportImportError := some err }
  | .ok abs =>
    let dir := env.dir abs
    let base := env.base abs
    if hasFile s.importedFiles dir base then s
    else { s with importedFiles := s.importedFiles ++ [⟨dir, base⟩] }

/-! ## The debouncer (main.go 120-177, reload_posix.go) -/

/-- `doReload()` of reload_posix.go.  On POSIX `os.FindProcess` always succeeds, so
the function prints one line and sends `SIGUSR1` to the own process. -/
def doReload (s : State) : State :=
  let s := println s "Reloading Caddyfile"
  { s with log := s.log ++ [Effect.signalUSR1] }

/-- `triggerDebouncer(filename)`. -/
def triggerDebouncer (s : State) (filename : String) : State :=
  if s.debouncer.Blind then s
  else
    { s with
      debouncer := { Blind := true, Reason := filename }
      timers := s.timers + 1
      log := s.log ++ [Effect.afterFunc] }

/-- The function passed to `time.AfterFunc` in `triggerDebouncer`; it can only run
when a timer is outstanding. -/
def timerFired (s : State) : Option State :=
  if s.timers = 0 then none
  else
    let s := { s with debouncer := { s.debouncer with Blind := false }, timers := s.timers - 1 }
    let s := println s ("File changed: " ++ s.debouncer.Reason)
    some (doReload s)

/-- The loop `for _, i := range importedFiles { if match { triggerDebouncer(filename) } }`
of `onFilechangeEventReceived`. -/
def triggerMatches (files : List ImportedFile) (dir base filename : String) (s : State) : State :=
  match files with
  | [] => s
  | i :: rest =>
    if i.Dir = dir ∧ i.Base = base then
      triggerMatches rest dir base filename (triggerDebouncer s filename)
    else triggerMatches rest dir base filename s

/-- `onFilechangeEventReceived(filename)`. -/
def onFilechangeEventReceived (env : Env) (s : State) (filename : String) : State :=
  if s.debouncer.Blind then s
  else
    match env.abs filename with
    | .error err => println s ("Error in config file watcher: " ++ err.msg)
    | .ok abs =>
      let dir := env.dir abs
      let base := env.base abs
      triggerMatches s.importedFiles dir base filename s

/-- One iteration of the goroutine of `load` that receives `event` from `watcher.Events`. -/
def loopEvent (env : Env) (s : State) (name : String) : State :=
  if name ≠ "" then onFilechangeEventReceived env s name else s

/-- One iteration of the goroutine of `load` that receives `err` from `watcher.Errors`. -/
def loopError (s : State) (err : Option GoError) : State :=
  match err with
  | some e => println s ("Error from file watcher: " ++ e.msg)
  | none => s

/-! ## `load` (main.go 30-118) -/

/-- `emulateCaddyfileLoading(serverType)`. -/
def emulateCaddyfileLoading (env : Env) (conf serverType : String) :
    Option Input × Option GoError :=
  match env.confLoader conf serverType with
  | (input, some err) => (input, some err)
  | (some input, none) => (some input, none)
  | (none, none) => env.defaultLoader serverType

/-- The loop `for _, i := range importedFiles { Println(...); err = watcher.Add(i.Dir); ... }`
on the watcher `w`: the error that ends it (if any), the watcher and the log afterwards. -/
def addWatches (env : Env) (w : Watcher) (log : List Effect) (files : List ImportedFile) :
    Option GoError × Watcher × List Effect :=
  match files with
  | [] => (none, w, log)
  | i :: rest =>
    let log := log ++ [Effect.println ("Watching config file: " ++ env.join i.Dir i.Base)]
    let log := log ++ [Effect.watcherAdd w.id i.Dir]
    match env.add w.dirs i.Dir with
    | some err => (some err, w, log)
    | none => addWatches env { w with dirs := w.dirs ++ [i.Dir] } log rest

/-- The block `if watcher != nil { watcher.Close() }`. -/
def stopOldWatcher (s : State) : State :=
  match s.watcher with
  | none => s
  | some w =>
    { s with watcher := some { w with closed := true }, log := s.log ++ [Effect.watcherClose w.id] }

/-- `load(serverType)`: the returned `(caddy.Input, error)` and the state afterwards.
When `fsnotify.NewWatcher()` fails it returns a nil watcher, which the assignment
`watcher, err = fsnotify.NewWatcher()` stores in `watcher`. -/
def load (env : Env) (serverType : String) (s : State) :
    (Option Input × Option GoError) × State :=
  -- if !active { return nil, nil }
  if !s.active then ((none, none), s)
  else
    -- conf = flag.Lookup("conf").Value.String()
    let s := { s with conf := env.confFlag }
    -- input, err := emulateCaddyfileLoading(serverType)
    match emulateCaddyfileLoading env s.conf serverType with
    | (_, some err) => ((none, some err), s)
    | (none, none) => ((some emptyInput, none), s)
    | (some input, none) =>
      -- importedFiles = nil; reportImportError = nil
      let s := { s with importedFiles := [], reportImportError := none }
      -- reportImportedFile(input.Path())
      let s := reportImportedFile env s input.path
      -- _, err = Parse(...), which reports every file it opens
      let s := (env.parse input.path input.body).1.foldl (reportImportedFile env) s
      match (env.parse input.path input.body).2 with
      | some err => ((none, some err), s)
      | none =>
        -- if reportImportError != nil { return nil, reportImportError }
        match s.reportImportError with
        | some err => ((none, some err), s)
        | none =>
          -- if watcher != nil { watcher.Close() }
          let s := stopOldWatcher s
          -- watcher, err = fsnotify.NewWatcher()
          match env.newWatcher with
          | some err => ((none, some err), { s with watcher := none })
          | none =>
            let w : Watcher := { id := s.nextWatcherId, dirs := [], closed := false }
            let s := { s with nextWatcherId := s.nextWatcherId + 1,
                              log := s.log ++ [Effect.newWatcher w.id] }
            -- for _, i := range importedFiles { ... watcher.Add(i.Dir) ... }
            match addWatches env w s.log s.importedFiles with
            | (some err, w, log) => ((none, some err), { s with watcher := some w, log := log })
            | (none, w, log) =>
              -- go func() { for { select { ... } } }(); return input, nil
              ((some input, none), { s with watcher := some w, log := log ++ [Effect.spawnLoop] })

/-! ## Specification-side definitions -/

/-- Spec-side definition ("each unique pair exactly once, first-seen ordering"):
the list with every later duplicate removed. -/
def removeLaterDuplicates : List ImportedFile → List ImportedFile
  | [] => []
  | f :: rest => f :: (removeLaterDuplicates rest).filter (fun g => decide (g ≠ f))

/-- The `(directory, base name)` pair of an absolute path. -/
def pairOf (env : Env) (abs : String) : ImportedFile :=
  ⟨env.dir abs, env.base abs⟩

/-- What one call of `reportImportedFile` does to a file list, for a path that resolves. -/
def addFile (acc : List ImportedFile) (f : ImportedFile) : List ImportedFile :=
  if f ∈ acc then acc else acc ++ [f]


/-! ## A concrete `path/filepath` for the examples

The theorems below hold for every `Env`.  The worked examples need one concrete
instance: the POSIX behaviour of `path/filepath`, written on the characters of a path. -/

/-- The elements of a path between its slashes (an empty path has one empty element). -/
def splitSlash : List Char → List (List Char)
  | [] => [[]]
  | c :: cs =>
    if c = '/' then [] :: splitSlash cs
    else
      match splitSlash cs with
      | [] => [[c]]
      | h :: t => (c :: h) :: t

/-- One element of a path processed by `filepath.Clean`; `stack` holds the elements kept
so far, last one first. -/
def cleanPush (rooted : Bool) (stack : List (List Char)) (elem : List Char) : List (List Char) :=
  if elem = [] ∨ elem = ['.'] then stack
  else if elem = ['.', '.'] then
    match stack with
    | [] => if rooted then [] else [elem]
    | top :: rest => if top = ['.', '.'] then elem :: stack else rest
  else elem :: stack

/-- Path elements joined by single slashes. -/
def joinSlash : List (List Char) → List Char
  | [] => []
  | [e] => e
  | e :: rest => e ++ '/' :: joinSlash rest

/-- `filepath.Clean` on POSIX. -/
def filepathClean (path : String) : String :=
  let rooted : Bool := path.data.head? = some '/'
  let elems := ((splitSlash path.data).foldl (cleanPush rooted) []).reverse
  let out := (if rooted then ['/'] else []) ++ joinSlash elems
  if out = [] then "." else ⟨out⟩

/-- `filepath.Dir` on POSIX: `Clean` of the path up to and including its last slash. -/
def filepathDir (path : String) : String :=
  filepathClean ⟨(path.data.reverse.dropWhile (fun c => c ≠ '/')).reverse⟩

/-- `filepath.Base` on POSIX. -/
def filepathBase (path : String) : String :=
  if path = "" then "."
  else
    let stripped := path.data.reverse.dropWhile (fun c => c = '/')
    let last := (stripped.takeWhile (fun c => c ≠ '/')).reverse
    if last = [] then "/" else ⟨last⟩

/-- `filepath.Join(a, b)` on POSIX. -/
def filepathJoin (a b : String) : String :=
  if a ≠ "" then filepathClean (a ++ "/" ++ b)
  else if b ≠ "" then filepathClean b
  else ""

/-- `filepath.Abs` on POSIX, where `getwd` is the result of `os.Getwd()`. -/
def filepathAbs (getwd : Except GoError String) (path : String) : Except GoError String :=
  if path.data.head? = some '/' then .ok (filepathClean path)
  else
    match getwd with
    | .error err => .error err
    | .ok wd => .ok (filepathJoin wd path)

/-- An environment on a POSIX system: `getwd` is the result of `os.Getwd()`, `found` what
`emulateCaddyfileLoading` finds, `parsed` what `Parse` reports and returns, `newWatcher`
and `add` the results of the `fsnotify` calls. -/
def posixEnv (getwd : Except GoError String) (found : Option Input × Option GoError)
    (parsed : List String × Option GoError) (newWatcher : Option GoError)
    (add : List String → String → Option GoError) : Env :=
  { abs := filepathAbs getwd
    dir := filepathDir
    base := filepathBase
    join := filepathJoin
    confFlag := ""
    confLoader := fun _ _ => found
    defaultLoader := fun _ => (none, none)
    parse := fun _ _ => parsed
    newWatcher := newWatcher
    add := add }

/-- The Caddyfile found in the examples. -/
def rootInput : Input := ⟨"/etc/app/Caddyfile", "import sites.conf", "http"⟩

/-- A POSIX environment in which every call succeeds: the working directory is `/srv`, the
Caddyfile `/etc/app/Caddyfile` is found and `Parse` reports the files `imports`. -/
def okEnv (imports : List String) : Env :=
  posixEnv (.ok "/srv") (some rootInput, none) (imports, none) none (fun _ _ => none)

/-! ## The running system as a transition system -/

/-- One atomic step of the running package. -/
inductive Step where
  /-- the goroutine of `load` receives an event with this name from `watcher.Events` -/
  | event (env : Env) (name : String)
  /-- the goroutine of `load` receives this value from `watcher.Errors` -/
  | error (err : Option GoError)
  /-- a call of `triggerDebouncer` (an event that matched) -/
  | trigger (filename : String)
  /-- an outstanding quiet-window timer fires -/
  | fire
  /-- Caddy calls `load` -/
  | load (env : Env) (serverType : String)

/-- The state after one step; `none` when the step cannot happen (a timer firing
while none is outstanding). -/
def step (s : State) : Step → Option State
  | .event env name => some (loopEvent env s name)
  | .error err => some (loopError s err)
  | .trigger filename => some (triggerDebouncer s filename)
  | .fire => timerFired s
  | .load env serverType => some (load env serverType s).2

/-- The state after a trace of steps. -/
def run (s : State) : List Step → Option State
  | [] => some s
  | a :: rest =>
    match step s a with
    | none => none
    | some s' => run s' rest

/-- Number of `doReload` calls so far: each call sends exactly one `SIGUSR1`. -/
def reloadCalls (s : State) : Nat :=
  s.log.count Effect.signalUSR1

/-- Number of steps of a trace that take the debouncer from Idle (`Blind = false`) to
Blind (`Blind = true`). -/
def idleToBlind (s : State) : List Step → Nat
  | [] => 0
  | a :: rest =>
    match step s a with
    | none => 0
    | some s' =>
      (if s.debouncer.Blind = false ∧ s'.debouncer.Blind = true then 1 else 0) +
        idleToBlind s' rest

/-- Spec-side definition of the event filter: the event's path is non-empty, resolves to
an absolute path, and the `(directory, base name)` pair of that path is in the file set. -/
def matchesFileSet (env : Env) (files : List ImportedFile) (name : String) : Prop :=
  name ≠ "" ∧ ∃ a, env.abs name = .ok a ∧ pairOf env a ∈ files

/-- The state of a first generation that tracks only `/etc/app/Caddyfile`. -/
def caddyfileOnly : State :=
  { initState true with importedFiles := [⟨"/etc/app", "Caddyfile"⟩] }

/-! ## What one run of `load` records -/

/-- The effect of one `reportImportedFile` call on the pair
`(importedFiles, reportImportError)`. -/
def recordStep (env : Env) (acc : List ImportedFile × Option GoError) (p : String) :
    List ImportedFile × Option GoError :=
  match env.abs p with
  | .error err => (acc.1, some err)
  | .ok a => (addFile acc.1 (pairOf env a), acc.2)

/-- The pair `(importedFiles, reportImportError)` after `load` has reset both, reported the
root file `input.Path()` and run `Parse`. -/
def recorded (env : Env) (input : Input) : List ImportedFile × Option GoError :=
  (input.path :: (env.parse input.path input.body).1).foldl (recordStep env) ([], none)

/-- The state of `load` when `Parse` has returned. -/
def afterParse (env : Env) (s : State) (input : Input) : State :=
  { s with conf := env.confFlag, importedFiles := (recorded env input).1,
           reportImportError := (recorded env input).2 }

/-- What `if watcher != nil { watcher.Close() }` appends to the log. -/
def closeLog : Option Watcher → List Effect
  | none => []
  | some w => [Effect.watcherClose w.id]

/-- What the loop over `importedFiles` appends to the log when it runs over `files` on the
watcher `id`: one line and one `watcher.Add(i.Dir)` per file. -/
def addLog (env : Env) (id : Nat) : List ImportedFile → List Effect
  | [] => []
  | i :: rest =>
    Effect.println ("Watching config file: " ++ env.join i.Dir i.Base) ::
      Effect.watcherAdd id i.Dir :: addLog env id rest

/-- The error of the first `watcher.Add` that fails when the directories of `files` are
added, in order, to a watcher that holds `dirs`. -/
def firstAddError (env : Env) (dirs : List String) : List ImportedFile → Option GoError
  | [] => none
  | i :: rest =>
    match env.add dirs i.Dir with
    | some err => some err
    | none => firstAddError env (dirs ++ [i.Dir]) rest

/-- The number of `watcher.Add` calls that succeed before the first one that fails. -/
def addedCount (env : Env) (dirs : List String) : List ImportedFile → Nat
  | [] => 0
  | i :: rest =>
    match env.add dirs i.Dir with
    | some _ => 0
    | none => addedCount env (dirs ++ [i.Dir]) rest + 1

/-- The number of `watcher.Add` calls made: all up to and including the first that fails. -/
def addCalls (env : Env) (dirs : List String) : List ImportedFile → Nat
  | [] => 0
  | i :: rest =>
    match env.add dirs i.Dir with
    | some _ => 1
    | none => addCalls env (dirs ++ [i.Dir]) rest + 1

/-- The directories passed to `watcher.Add` according to a log, in call order. -/
def addedDirs : List Effect → List String
  | [] => []
  | Effect.watcherAdd _ dir :: rest => dir :: addedDirs rest
  | _ :: rest => addedDirs rest

/-- A POSIX environment in which the Caddyfile is found and `Parse` fails with a syntax
error after having reported `imports`. -/
def parseErrorEnv (imports : List String) : Env :=
  posixEnv (.ok "/srv") (some rootInput, none) (imports, some ⟨"syntax error"⟩) none
    (fun _ _ => none)

/-- The `(directory, base name)` pairs of the paths that resolve to an absolute path, in
order (a path whose resolution fails records no file). -/
def resolvedFiles (env : Env) : List String → List ImportedFile
  | [] => []
  | p :: rest =>
    match env.abs p with
    | .ok a => pairOf env a :: resolvedFiles env rest
    | .error _ => resolvedFiles env rest

/-- The error of the first path, in order, whose resolution fails. -/
def firstResolutionError (env : Env) : List String → Option GoError
  | [] => none
  | p :: rest =>
    match env.abs p with
    | .error err => some err
    | .ok _ => firstResolutionError env rest

/-- The error of the last path, in order, whose resolution fails. -/
def lastResolutionError (env : Env) : List String → Option GoError
  | [] => none
  | p :: rest =>
    match lastResolutionError env rest with
    | some err => some err
    | none =>
      match env.abs p with
      | .error err => some err
      | .ok _ => none

/-- The paths `load` passes to `reportImportedFile`, directly (the root) and through
`Parse` (the imports), in call order; none when `load` returns before recording. -/
def reportedPaths (env : Env) (serverType : String) (s : State) : List String :=
  if s.active = false then []
  else
    match emulateCaddyfileLoading env env.confFlag serverType with
    | (some input, none) => input.path :: (env.parse input.path input.body).1
    | _ => []

/-- Spec-side definition ("the first error encountered"): the error raised by the earliest
failing step of a run of `load`, the steps taken in the order they happen: the loaders,
the resolution of the root path, the resolution of every import reported while `Parse`
runs, the return of `Parse`, `NewWatcher`, and the `Add` calls. -/
def earliestError (env : Env) (serverType : String) (s : State) : Option GoError :=
  if s.active = false then none
  else
    match emulateCaddyfileLoading env env.confFlag serverType with
    | (_, some err) => some err
    | (none, none) => none
    | (some input, none) =>
      match firstResolutionError env (input.path :: (env.parse input.path input.body).1) with
      | some err => some err
      | none =>
        match (env.parse input.path input.body).2 with
        | some err => some err
        | none =>
          match env.newWatcher with
          | some err => some err
          | none => firstAddError env [] (recorded env input).1

/-- A Caddyfile given by a relative path. -/
def relativeInput : Input := ⟨"Caddyfile", "import sites.conf", "http"⟩

/-- A POSIX environment in which `os.Getwd` fails, the Caddyfile is given by a relative
path, and `Parse` then fails with a syntax error. -/
def noCwdParseErrorEnv : Env :=
  posixEnv (.error ⟨"getwd: no such file or directory"⟩) (some relativeInput, none)
    ([], some ⟨"syntax error"⟩) none (fun _ _ => none)

/-- An environment in which the resolution of the root path `Caddyfile` fails with one
error and the resolution of the import `sites.conf` with another (the working directory
is lost while `Parse` runs), and `Parse` itself succeeds. -/
def twoResolutionErrorsEnv : Env :=
  { posixEnv (.ok "/srv") (some relativeInput, none) (["sites.conf"], none) none
      (fun _ _ => none) with
    abs := fun p =>
      if p = "Caddyfile" then .error ⟨"getwd: permission denied"⟩
      else if p = "sites.conf" then .error ⟨"getwd: no such file or directory"⟩
      else filepathAbs (.ok "/srv") p }

/-- A POSIX environment in which the Caddyfile is found, `Parse` reports `imports` and
succeeds, and `fsnotify.NewWatcher` fails. -/
def watcherLimitEnv (imports : List String) : Env :=
  posixEnv (.ok "/srv") (some rootInput, none) (imports, none)
    (some ⟨"too many open files"⟩) (fun _ _ => none)

/-- The state after a first generation was built for a Caddyfile that imports
`/etc/app/sites.conf`. -/
def firstGeneration : State :=
  (load (okEnv ["/etc/app/sites.conf"]) "http" (initState true)).2

/-- Does this call of `load` build a generation: the flag is on, a Caddyfile is found and
no error is returned? -/
def buildsGeneration (env : Env) (serverType : String) (s : State) : Bool :=
  s.active &&
    (match emulateCaddyfileLoading env env.confFlag serverType with
      | (some _, none) => true
      | _ => false) &&
    decide ((load env serverType s).1.2 = none)

/-- A burst: three matching events, the timer, a further matching event, the timer. -/
def burstTrace : List Step :=
  [Step.trigger "/etc/app/Caddyfile", Step.trigger "/etc/app/sites.conf",
    Step.trigger "/etc/app/Caddyfile", Step.fire, Step.trigger "/etc/app/sites.conf",
    Step.fire]

/-- The state the burst `burstTrace` leaves when it starts in the first generation. -/
def afterBurst : State :=
  (run firstGeneration burstTrace).getD firstGeneration

/-- A trace that ends inside a quiet window: a load, a matching event seen by the
goroutine, and two more events. -/
def openWindowTrace : List Step :=
  [Step.load (okEnv ["/etc/app/sites.conf"]) "http",
    Step.event (okEnv []) "/etc/app/sites.conf", Step.event (okEnv []) "/etc/app/Caddyfile",
    Step.trigger "/etc/app/Caddyfile"]

/-- The state `openWindowTrace` leaves when it starts at program start. -/
def inWindow : State :=
  (run (initState true) openWindowTrace).getD (initState true)

/-! ## The process and its goroutines -/

theorem hasFile_iff (files : List ImportedFile) (dir base : String) :
    hasFile files dir base = true ↔ (⟨dir, base⟩ : ImportedFile) ∈ files := by
  induction files with
  | nil => simp [hasFile]
  | cons i rest ih =>
    unfold hasFile
    by_cases h : i.Dir = dir ∧ i.Base = base
    · have hi : i = ⟨dir, base⟩ := by
        cases i; simp at h; simp [h.1, h.2]
      simp [h, hi]
    · have hi : (⟨dir, base⟩ : ImportedFile) ≠ i := by
        intro e; apply h; rw [← e]; exact ⟨rfl, rfl⟩
      simp [h, ih, hi]

theorem reportImportedFile_ok (env : Env) (s : State) (p a : String)
    (h : env.abs p = .ok a) :
    reportImportedFile env s p =
      { s with importedFiles := addFile s.importedFiles (pairOf env a) } := by
  unfold reportImportedFile addFile pairOf
  rw [h]
  by_cases hm : (⟨env.dir a, env.base a⟩ : ImportedFile) ∈ s.importedFiles
  · have := (hasFile_iff s.importedFiles (env.dir a) (env.base a)).2 hm
    simp [this, hm]
  · have : hasFile s.importedFiles (env.dir a) (env.base a) = false := by
      cases hb : hasFile s.importedFiles (env.dir a) (env.base a) with
      | false => rfl
      | true => exact absurd ((hasFile_iff _ _ _).1 hb) hm
    simp [this, hm]

theorem foldl_report_ok (env : Env) (paths abss : List String) (s : State)
    (h : paths.map env.abs = abss.map Except.ok) :
    paths.foldl (reportImportedFile env) s =
      { s with importedFiles := (abss.map (pairOf env)).foldl addFile s.importedFiles } := by
  induction paths generalizing abss s with
  | nil =>
    cases abss with
    | nil => rfl
    | cons a t => simp at h
  | cons p ps ih =>
    cases abss with
    | nil => simp at h
    | cons a t =>
      simp only [List.map_cons, List.cons.injEq] at h
      simp only [List.foldl_cons, List.map_cons]
      rw [reportImportedFile_ok env s p a h.1, ih t _ h.2]

theorem foldl_addFile (l acc : List ImportedFile) :
    l.foldl addFile acc = acc ++ (removeLaterDuplicates l).filter (fun g => decide (g ∉ acc)) := by
  induction l generalizing acc with
  | nil => simp [removeLaterDuplicates]
  | cons f rest ih =>
    simp only [List.foldl_cons, removeLaterDuplicates]
    rw [ih]
    by_cases hf : f ∈ acc
    · simp only [addFile, hf, if_true, List.filter_cons, decide_not, decide_True, Bool.not_true,
        Bool.false_eq_true, if_false, List.filter_filter]
      congr 1
      apply List.filter_congr
      intro g _
      by_cases hg : g ∈ acc
      · simp [hg]
      · have : g ≠ f := fun e => hg (e ▸ hf)
        simp [hg, this]
    · simp only [addFile, hf, if_false, List.filter_cons, decide_not, decide_False, Bool.not_false,
        if_true, List.filter_filter, List.append_assoc, List.singleton_append]
      congr 2
      apply List.filter_congr
      intro g _
      by_cases hg : g ∈ acc
      · simp [hg]
      · by_cases hgf : g = f
        · simp [hgf]
        · simp [hg, hgf]

theorem foldl_addFile_nil (l : List ImportedFile) :
    l.foldl addFile [] = removeLaterDuplicates l := by
  rw [foldl_addFile]; simp

theorem mem_removeLaterDuplicates (l : List ImportedFile) (f : ImportedFile) :
    f ∈ removeLaterDuplicates l ↔ f ∈ l := by
  induction l with
  | nil => simp [removeLaterDuplicates]
  | cons g rest ih =>
    simp only [removeLaterDuplicates, List.mem_cons, List.mem_filter, ih, decide_not,
      Bool.not_eq_true', decide_eq_false_iff_not]
    by_cases h : f = g
    · simp [h]
    · simp [h]

theorem nodup_removeLaterDuplicates (l : List ImportedFile) :
    (removeLaterDuplicates l).Nodup := by
  induction l with
  | nil => simp [removeLaterDuplicates]
  | cons g rest ih =>
    simp only [removeLaterDuplicates, List.nodup_cons, List.mem_filter]
    exact ⟨by simp, ih.filter _⟩

theorem sublist_removeLaterDuplicates (l : List ImportedFile) :
    (removeLaterDuplicates l).Sublist l := by
  induction l with
  | nil => simp [removeLaterDuplicates]
  | cons g rest ih =>
    simp only [removeLaterDuplicates]
    exact ((List.filter_sublist _).trans ih).cons₂ g

theorem head_removeLaterDuplicates (l : List ImportedFile) :
    (removeLaterDuplicates l).head? = l.head? := by
  cases l <;> simp [removeLaterDuplicates]

theorem indexOf_filter_ne (l : List ImportedFile) (x f g : ImportedFile)
    (hf : f ≠ x) (hg : g ≠ x) (hfl : f ∈ l) (hgl : g ∈ l) :
    (List.indexOf f (l.filter (fun y => decide (y ≠ x))) <
        List.indexOf g (l.filter (fun y => decide (y ≠ x)))) ↔
      List.indexOf f l < List.indexOf g l := by
  induction l with
  | nil => simp at hfl
  | cons y rest ih =>
    by_cases hyx : y = x
    · subst hyx
      have hf' : f ∈ rest := by simpa [hf] using hfl
      have hg' : g ∈ rest := by simpa [hg] using hgl
      have hk : (y :: rest).filter (fun z => decide (z ≠ y)) =
          rest.filter (fun z => decide (z ≠ y)) := by
        simp [List.filter_cons]
      rw [hk, List.indexOf_cons_ne rest (Ne.symm hf), List.indexOf_cons_ne rest (Ne.symm hg),
        ih hf' hg']
      omega
    · have hk : (y :: rest).filter (fun z => decide (z ≠ x)) =
          y :: rest.filter (fun z => decide (z ≠ x)) := by
        simp [List.filter_cons, hyx]
      rw [hk]
      by_cases hfy : y = f
      · by_cases hgy : y = g
        · rw [List.indexOf_cons_eq _ hfy, List.indexOf_cons_eq _ hgy,
            List.indexOf_cons_eq _ hfy, List.indexOf_cons_eq _ hgy]
        · rw [List.indexOf_cons_eq _ hfy, List.indexOf_cons_ne _ hgy,
            List.indexOf_cons_eq _ hfy, List.indexOf_cons_ne _ hgy]
          simp
      · by_cases hgy : y = g
        · rw [List.indexOf_cons_ne _ hfy, List.indexOf_cons_eq _ hgy,
            List.indexOf_cons_ne _ hfy, List.indexOf_cons_eq _ hgy]
          simp
        · have hf' : f ∈ rest := by simpa [Ne.symm hfy] using hfl
          have hg' : g ∈ rest := by simpa [Ne.symm hgy] using hgl
          have := ih hf' hg'
          rw [List.indexOf_cons_ne _ hfy, List.indexOf_cons_ne _ hgy,
            List.indexOf_cons_ne _ hfy, List.indexOf_cons_ne _ hgy]
          omega

theorem indexOf_removeLaterDuplicates (l : List ImportedFile) (f g : ImportedFile)
    (hf : f ∈ l) (hg : g ∈ l) :
    (List.indexOf f (removeLaterDuplicates l) < List.indexOf g (removeLaterDuplicates l)) ↔
      List.indexOf f l < List.indexOf g l := by
  induction l with
  | nil => simp at hf
  | cons y rest ih =>
    simp only [removeLaterDuplicates]
    by_cases hfy : y = f
    · by_cases hgy : y = g
      · rw [List.indexOf_cons_eq _ hfy, List.indexOf_cons_eq _ hgy,
          List.indexOf_cons_eq _ hfy, List.indexOf_cons_eq _ hgy]
      · rw [List.indexOf_cons_eq _ hfy, List.indexOf_cons_ne _ hgy,
          List.indexOf_cons_eq _ hfy, List.indexOf_cons_ne _ hgy]
        simp
    · by_cases hgy : y = g
      · rw [List.indexOf_cons_ne _ hfy, List.indexOf_cons_eq _ hgy,
          List.indexOf_cons_ne _ hfy, List.indexOf_cons_eq _ hgy]
        simp
      · have hf' : f ∈ rest := by simpa [Ne.symm hfy] using hf
        have hg' : g ∈ rest := by simpa [Ne.symm hgy] using hg
        have h1 := indexOf_filter_ne (removeLaterDuplicates rest) y f g (Ne.symm hfy) (Ne.symm hgy)
          ((mem_removeLaterDuplicates _ _).2 hf') ((mem_removeLaterDuplicates _ _).2 hg')
        have h2 := ih hf' hg'
        rw [List.indexOf_cons_ne _ hfy, List.indexOf_cons_ne _ hgy,
          List.indexOf_cons_ne _ hfy, List.indexOf_cons_ne _ hgy]
        omega

/-! ## C1: the import recorder -/

/-- C1. Calling `reportImportedFile` on a sequence of paths, starting from an empty
`importedFiles`, where every path resolves to an absolute path (`abss`), leaves in
`importedFiles` the `(Dir, Base)` pairs of those paths with every later duplicate removed:
no pair occurs twice, the pairs present are exactly the pairs reported, they stand in the
order of their first report (so the first reported file, the root, is at index 0), and
nothing else of the state changes. -/
theorem C1_reportImportedFile_dedup (env : Env) (s : State) (paths abss : List String)
    (hempty : s.importedFiles = [])
    (habs : paths.map env.abs = abss.map Except.ok) :
    paths.foldl (reportImportedFile env) s =
        { s with importedFiles := removeLaterDuplicates (abss.map (pairOf env)) } ∧
      (removeLaterDuplicates (abss.map (pairOf env))).Nodup ∧
      (∀ f, f ∈ removeLaterDuplicates (abss.map (pairOf env)) ↔ f ∈ abss.map (pairOf env)) ∧
      (removeLaterDuplicates (abss.map (pairOf env))).Sublist (abss.map (pairOf env)) ∧
      (∀ f g, f ∈ abss.map (pairOf env) → g ∈ abss.map (pairOf env) →
        ((List.indexOf f (removeLaterDuplicates (abss.map (pairOf env))) <
            List.indexOf g (removeLaterDuplicates (abss.map (pairOf env)))) ↔
          List.indexOf f (abss.map (pairOf env)) < List.indexOf g (abss.map (pairOf env)))) ∧
      (removeLaterDuplicates (abss.map (pairOf env))).head? = (abss.map (pairOf env)).head? := by
  refine ⟨?_, nodup_removeLaterDuplicates _, mem_removeLaterDuplicates _,
    sublist_removeLaterDuplicates _, fun f g => indexOf_removeLaterDuplicates _ f g,
    head_removeLaterDuplicates _⟩
  rw [foldl_report_ok env paths abss s habs, hempty, foldl_addFile_nil]

/-- Witness of C1, the diamond import: the root, `fileA`, `fileB` (imported by `fileA`) and
`fileB` again (imported by the root under another spelling) give exactly 3 entries, the
root first. -/
theorem C1_diamond_witness :
    (initState true).importedFiles = [] ∧
      (["/etc/app/Caddyfile", "/etc/app/fileA", "/etc/app/fileB", "/etc/app/./fileB"].map
          (okEnv []).abs =
        ["/etc/app/Caddyfile", "/etc/app/fileA", "/etc/app/fileB", "/etc/app/fileB"].map
          Except.ok) ∧
      (["/etc/app/Caddyfile", "/etc/app/fileA", "/etc/app/fileB", "/etc/app/./fileB"].foldl
          (reportImportedFile (okEnv [])) (initState true)).importedFiles =
        [⟨"/etc/app", "Caddyfile"⟩, ⟨"/etc/app", "fileA"⟩, ⟨"/etc/app", "fileB"⟩] := by
  refine ⟨rfl, rfl, ?_⟩
  rw [(C1_reportImportedFile_dedup (okEnv []) (initState true)
    ["/etc/app/Caddyfile", "/etc/app/fileA", "/etc/app/fileB", "/etc/app/./fileB"]
    ["/etc/app/Caddyfile", "/etc/app/fileA", "/etc/app/fileB", "/etc/app/fileB"]
    rfl rfl).1]
  decide

/-! ## Lemmas on the debouncer -/

theorem triggerDebouncer_blind (s : State) (filename : String)
    (h : s.debouncer.Blind = true) : triggerDebouncer s filename = s := by
  simp [triggerDebouncer, h]

theorem triggerDebouncer_idle (s : State) (filename : String)
    (h : s.debouncer.Blind = false) :
    triggerDebouncer s filename =
      { s with debouncer := ⟨true, filename⟩, timers := s.timers + 1,
               log := s.log ++ [Effect.afterFunc] } := by
  simp [triggerDebouncer, h]

theorem triggerMatches_blind (files : List ImportedFile) (dir base filename : String)
    (s : State) (h : s.debouncer.Blind = true) :
    triggerMatches files dir base filename s = s := by
  induction files with
  | nil => rfl
  | cons i rest ih =>
    unfold triggerMatches
    split
    · rw [triggerDebouncer_blind s filename h]; exact ih
    · exact ih

theorem triggerMatches_idle (files : List ImportedFile) (dir base filename : String)
    (s : State) (h : s.debouncer.Blind = false) :
    triggerMatches files dir base filename s =
      if (⟨dir, base⟩ : ImportedFile) ∈ files then triggerDebouncer s filename else s := by
  induction files with
  | nil => simp [triggerMatches]
  | cons i rest ih =>
    unfold triggerMatches
    by_cases hi : i.Dir = dir ∧ i.Base = base
    · have e : (⟨dir, base⟩ : ImportedFile) = i := by
        cases i; simp at hi; simp [hi.1, hi.2]
      have hb : (triggerDebouncer s filename).debouncer.Blind = true := by
        simp [triggerDebouncer, h]
      rw [if_pos hi, triggerMatches_blind rest dir base filename _ hb]
      simp [e]
    · have e : (⟨dir, base⟩ : ImportedFile) ≠ i := by
        intro e; apply hi; rw [← e]; exact ⟨rfl, rfl⟩
      rw [if_neg hi, ih]
      simp [e]

theorem onFilechangeEventReceived_blind (env : Env) (s : State) (filename : String)
    (h : s.debouncer.Blind = true) : onFilechangeEventReceived env s filename = s := by
  simp [onFilechangeEventReceived, h]

theorem loopEvent_blind (env : Env) (s : State) (name : String)
    (h : s.debouncer.Blind = true) : loopEvent env s name = s := by
  unfold loopEvent
  split
  · exact onFilechangeEventReceived_blind env s name h
  · rfl

theorem loopEvent_match (env : Env) (s : State) (name : String)
    (h : s.debouncer.Blind = false) (hm : matchesFileSet env s.importedFiles name) :
    loopEvent env s name = triggerDebouncer s name := by
  obtain ⟨hne, a, ha, hmem⟩ := hm
  have hmem' : (⟨env.dir a, env.base a⟩ : ImportedFile) ∈ s.importedFiles := hmem
  simp [loopEvent, hne, onFilechangeEventReceived, h, ha, triggerMatches_idle, hmem']

theorem loopEvent_nomatch (env : Env) (s : State) (name : String)
    (h : s.debouncer.Blind = false) (hm : ¬ matchesFileSet env s.importedFiles name) :
    (loopEvent env s name).debouncer = s.debouncer ∧
      (loopEvent env s name).timers = s.timers ∧
      (loopEvent env s name).importedFiles = s.importedFiles ∧
      (loopEvent env s name).log.count Effect.afterFunc = s.log.count Effect.afterFunc ∧
      (loopEvent env s name).log.count Effect.signalUSR1 = s.log.count Effect.signalUSR1 := by
  unfold loopEvent
  by_cases hne : name = ""
  · simp [hne]
  · simp only [ne_eq, hne, not_false_eq_true, if_true, onFilechangeEventReceived, h,
      Bool.false_eq_true, if_false]
    cases ha : env.abs name with
    | error e => simp [println, List.count_append, List.count_cons]
    | ok a =>
      have hmem : (⟨env.dir a, env.base a⟩ : ImportedFile) ∉ s.importedFiles := by
        intro hmem; exact hm ⟨hne, a, ha, hmem⟩
      simp [triggerMatches_idle, h, hmem]

/-! ## C3: the event filter -/

/-- C3. While the debouncer is Idle, an event handled by the consumption loop triggers the
debouncer if and only if its path is non-empty, resolves to an absolute path, and the
`(directory, base name)` pair of that path is an element of `importedFiles`: in that case
the iteration is exactly one `triggerDebouncer` call (Blind with the event's name as
Reason and one new timer); otherwise debouncer and timers are untouched; and an event
with an empty path changes nothing at all (nothing is printed either). -/
theorem C3_event_filter_exact (env : Env) (s : State) (name : String)
    (hidle : s.debouncer.Blind = false) :
    ((loopEvent env s name).debouncer.Blind = true ↔
        matchesFileSet env s.importedFiles name) ∧
      (matchesFileSet env s.importedFiles name →
        loopEvent env s name = triggerDebouncer s name ∧
          (loopEvent env s name).debouncer = ⟨true, name⟩ ∧
          (loopEvent env s name).timers = s.timers + 1) ∧
      (¬ matchesFileSet env s.importedFiles name →
        (loopEvent env s name).debouncer = s.debouncer ∧
          (loopEvent env s name).timers = s.timers) ∧
      (name = "" → loopEvent env s name = s) := by
  have hyes : matchesFileSet env s.importedFiles name →
      loopEvent env s name = triggerDebouncer s name ∧
        (loopEvent env s name).debouncer = ⟨true, name⟩ ∧
        (loopEvent env s name).timers = s.timers + 1 := by
    intro hm
    rw [loopEvent_match env s name hidle hm, triggerDebouncer_idle s name hidle]
    exact ⟨rfl, rfl, rfl⟩
  have hno : ¬ matchesFileSet env s.importedFiles name →
      (loopEvent env s name).debouncer = s.debouncer ∧
        (loopEvent env s name).timers = s.timers := by
    intro hm
    have := loopEvent_nomatch env s name hidle hm
    exact ⟨this.1, this.2.1⟩
  refine ⟨⟨?_, ?_⟩, hyes, hno, ?_⟩
  · intro hb
    by_contra hm
    rw [(hno hm).1, hidle] at hb
    exact Bool.false_ne_true hb
  · intro hm
    rw [(hyes hm).2.1]
  · intro hne
    simp [loopEvent, hne]

/-- Witness of C3: with the file set `{(/etc/app, Caddyfile)}` and an Idle debouncer, an
event for `/etc/app/Caddyfile` matches and triggers, an event for `/etc/app/other.txt`
does not match and does not trigger, and an event with an empty path changes nothing. -/
theorem C3_event_filter_witness :
    caddyfileOnly.debouncer.Blind = false ∧
      matchesFileSet (okEnv []) caddyfileOnly.importedFiles "/etc/app/Caddyfile" ∧
      (loopEvent (okEnv []) caddyfileOnly "/etc/app/Caddyfile").debouncer =
        ⟨true, "/etc/app/Caddyfile"⟩ ∧
      ¬ matchesFileSet (okEnv []) caddyfileOnly.importedFiles "/etc/app/other.txt" ∧
      loopEvent (okEnv []) caddyfileOnly "/etc/app/other.txt" = caddyfileOnly ∧
      loopEvent (okEnv []) caddyfileOnly "" = caddyfileOnly := by
  have hyes := C3_event_filter_exact (okEnv []) caddyfileOnly "/etc/app/Caddyfile" rfl
  have hno := C3_event_filter_exact (okEnv []) caddyfileOnly "/etc/app/other.txt" rfl
  have hempty := C3_event_filter_exact (okEnv []) caddyfileOnly "" rfl
  refine ⟨rfl, hyes.1.1 (by decide), (hyes.2.1 (hyes.1.1 (by decide))).2.1, ?_, by decide,
    hempty.2.2.2 rfl⟩
  intro hm
  exact absurd (hno.1.2 hm) (by decide)

/-! ## Lemmas on `load` -/

theorem reportImportedFile_eq (env : Env) (s : State) (p : String) :
    reportImportedFile env s p =
      { s with importedFiles := (recordStep env (s.importedFiles, s.reportImportError) p).1,
               reportImportError :=
                 (recordStep env (s.importedFiles, s.reportImportError) p).2 } := by
  unfold reportImportedFile recordStep
  cases h : env.abs p with
  | error e => rfl
  | ok a =>
    simp only [addFile, pairOf]
    by_cases hm : (⟨env.dir a, env.base a⟩ : ImportedFile) ∈ s.importedFiles
    · simp [(hasFile_iff _ _ _).2 hm, hm]
    · have : hasFile s.importedFiles (env.dir a) (env.base a) = false := by
        cases hb : hasFile s.importedFiles (env.dir a) (env.base a) with
        | false => rfl
        | true => exact absurd ((hasFile_iff _ _ _).1 hb) hm
      simp [this, hm]

theorem foldl_report_eq (env : Env) (paths : List String) (s : State) :
    paths.foldl (reportImportedFile env) s =
      { s with importedFiles :=
                 (paths.foldl (recordStep env) (s.importedFiles, s.reportImportError)).1,
               reportImportError :=
                 (paths.foldl (recordStep env) (s.importedFiles, s.reportImportError)).2 } := by
  induction paths generalizing s with
  | nil => rfl
  | cons p ps ih =>
    simp only [List.foldl_cons]
    rw [ih, reportImportedFile_eq]

theorem afterParse_eq (env : Env) (s : State) (input : Input) :
    (env.parse input.path input.body).1.foldl (reportImportedFile env)
        (reportImportedFile env
          { s with conf := env.confFlag, importedFiles := [], reportImportError := none }
          input.path) =
      afterParse env s input := by
  have := foldl_report_eq env (input.path :: (env.parse input.path input.body).1)
    { s with conf := env.confFlag, importedFiles := [], reportImportError := none }
  simp only [List.foldl_cons] at this
  rw [this]
  rfl

theorem load_inactive (env : Env) (serverType : String) (s : State)
    (h : s.active = false) : load env serverType s = ((none, none), s) := by
  simp [load, h]

theorem load_loader_error (env : Env) (serverType : String) (s : State) (x : Option Input)
    (e : GoError) (h : s.active = true)
    (hl : emulateCaddyfileLoading env env.confFlag serverType = (x, some e)) :
    load env serverType s = ((none, some e), { s with conf := env.confFlag }) := by
  simp [load, h, hl]

theorem load_no_caddyfile (env : Env) (serverType : String) (s : State)
    (h : s.active = true)
    (hl : emulateCaddyfileLoading env env.confFlag serverType = (none, none)) :
    load env serverType s = ((some emptyInput, none), { s with conf := env.confFlag }) := by
  simp [load, h, hl]

theorem load_found (env : Env) (serverType : String) (s : State) (input : Input)
    (h : s.active = true)
    (hl : emulateCaddyfileLoading env env.confFlag serverType = (some input, none)) :
    load env serverType s =
      match (env.parse input.path input.body).2 with
      | some err => ((none, some err), afterParse env s input)
      | none =>
        match (afterParse env s input).reportImportError with
        | some err => ((none, some err), afterParse env s input)
        | none =>
          match env.newWatcher with
          | some err =>
            ((none, some err), { stopOldWatcher (afterParse env s input) with watcher := none })
          | none =>
            match addWatches env
                ⟨(stopOldWatcher (afterParse env s input)).nextWatcherId, [], false⟩
                ((stopOldWatcher (afterParse env s input)).log ++
                  [Effect.newWatcher (stopOldWatcher (afterParse env s input)).nextWatcherId])
                (stopOldWatcher (afterParse env s input)).importedFiles with
            | (some err, w, log) =>
              ((none, some err),
                { stopOldWatcher (afterParse env s input) with
                  nextWatcherId := (stopOldWatcher (afterParse env s input)).nextWatcherId + 1,
                  watcher := some w, log := log })
            | (none, w, log) =>
              ((some input, none),
                { stopOldWatcher (afterParse env s input) with
                  nextWatcherId := (stopOldWatcher (afterParse env s input)).nextWatcherId + 1,
                  watcher := some w, log := log ++ [Effect.spawnLoop] }) := by
  unfold load
  rw [if_neg (by simp [h])]
  simp only []
  rw [hl]
  simp only []
  rw [afterParse_eq]

theorem stopOldWatcher_frame (s : State) :
    (stopOldWatcher s).active = s.active ∧ (stopOldWatcher s).conf = s.conf ∧
      (stopOldWatcher s).importedFiles = s.importedFiles ∧
      (stopOldWatcher s).reportImportError = s.reportImportError ∧
      (stopOldWatcher s).debouncer = s.debouncer ∧ (stopOldWatcher s).timers = s.timers ∧
      (stopOldWatcher s).nextWatcherId = s.nextWatcherId := by
  unfold stopOldWatcher
  cases s.watcher <;> simp

theorem load_parse_error (env : Env) (serverType : String) (s : State) (input : Input)
    (e : GoError) (h : s.active = true)
    (hl : emulateCaddyfileLoading env env.confFlag serverType = (some input, none))
    (hp : (env.parse input.path input.body).2 = some e) :
    load env serverType s = ((none, some e), afterParse env s input) := by
  rw [load_found env serverType s input h hl, hp]

theorem load_deferred_error (env : Env) (serverType : String) (s : State) (input : Input)
    (e : GoError) (h : s.active = true)
    (hl : emulateCaddyfileLoading env env.confFlag serverType = (some input, none))
    (hp : (env.parse input.path input.body).2 = none)
    (hr : (recorded env input).2 = some e) :
    load env serverType s = ((none, some e), afterParse env s input) := by
  have hr' : (afterParse env s input).reportImportError = some e := hr
  rw [load_found env serverType s input h hl, hp]
  simp only [hr']

theorem load_newWatcher_error (env : Env) (serverType : String) (s : State) (input : Input)
    (e : GoError) (h : s.active = true)
    (hl : emulateCaddyfileLoading env env.confFlag serverType = (some input, none))
    (hp : (env.parse input.path input.body).2 = none)
    (hr : (recorded env input).2 = none)
    (hw : env.newWatcher = some e) :
    load env serverType s =
      ((none, some e), { stopOldWatcher (afterParse env s input) with watcher := none }) := by
  have hr' : (afterParse env s input).reportImportError = none := hr
  rw [load_found env serverType s input h hl, hp]
  simp only [hr', hw]

theorem load_installs (env : Env) (serverType : String) (s : State) (input : Input)
    (h : s.active = true)
    (hl : emulateCaddyfileLoading env env.confFlag serverType = (some input, none))
    (hp : (env.parse input.path input.body).2 = none)
    (hr : (recorded env input).2 = none)
    (hw : env.newWatcher = none) :
    load env serverType s =
      match addWatches env ⟨s.nextWatcherId, [], false⟩
          ((stopOldWatcher (afterParse env s input)).log ++ [Effect.newWatcher s.nextWatcherId])
          (recorded env input).1 with
      | (some err, w, log) =>
        ((none, some err),
          { stopOldWatcher (afterParse env s input) with
            nextWatcherId := s.nextWatcherId + 1, watcher := some w, log := log })
      | (none, w, log) =>
        ((some input, none),
          { stopOldWatcher (afterParse env s input) with
            nextWatcherId := s.nextWatcherId + 1, watcher := some w,
            log := log ++ [Effect.spawnLoop] }) := by
  have hr' : (afterParse env s input).reportImportError = none := hr
  have hf := stopOldWatcher_frame (afterParse env s input)
  have hn : (stopOldWatcher (afterParse env s input)).nextWatcherId = s.nextWatcherId :=
    hf.2.2.2.2.2.2
  have hi : (stopOldWatcher (afterParse env s input)).importedFiles = (recorded env input).1 :=
    hf.2.2.1
  rw [load_found env serverType s input h hl, hp]
  simp only [hr', hw, hn, hi]

theorem stopOldWatcher_log (s : State) :
    (stopOldWatcher s).log = s.log ++ closeLog s.watcher := by
  unfold stopOldWatcher closeLog
  cases s.watcher <;> simp

theorem stopOldWatcher_eq (s : State) :
    stopOldWatcher s =
      { s with watcher := s.watcher.map (fun w => { w with closed := true }),
               log := s.log ++ closeLog s.watcher } := by
  cases s with
  | mk a c w f r d t n l => cases w <;> simp [stopOldWatcher, closeLog]

theorem addWatches_eq (env : Env) (w : Watcher) (log : List Effect)
    (files : List ImportedFile) :
    addWatches env w log files =
      (firstAddError env w.dirs files,
        { w with dirs := w.dirs ++ (files.take (addedCount env w.dirs files)).map (·.Dir) },
        log ++ addLog env w.id (files.take (addCalls env w.dirs files))) := by
  induction files generalizing w log with
  | nil => simp [addWatches, firstAddError, addLog]
  | cons i rest ih =>
    unfold addWatches firstAddError addedCount addCalls
    cases h : env.add w.dirs i.Dir with
    | some e => simp [addLog]
    | none =>
      simp only [ih, List.take_succ_cons, List.map_cons, addLog]
      simp

theorem firstAddError_none (env : Env) (dirs : List String) (files : List ImportedFile)
    (h : firstAddError env dirs files = none) :
    addedCount env dirs files = files.length ∧ addCalls env dirs files = files.length := by
  induction files generalizing dirs with
  | nil => simp [addedCount, addCalls]
  | cons i rest ih =>
    unfold firstAddError at h
    unfold addedCount addCalls
    cases ha : env.add dirs i.Dir with
    | some e => simp [ha] at h
    | none =>
      simp only [ha] at h
      simp [ih _ h]

theorem addedDirs_append (l₁ l₂ : List Effect) :
    addedDirs (l₁ ++ l₂) = addedDirs l₁ ++ addedDirs l₂ := by
  induction l₁ with
  | nil => rfl
  | cons a rest ih => cases a <;> simp [addedDirs, ih]

theorem addedDirs_addLog (env : Env) (id : Nat) (files : List ImportedFile) :
    addedDirs (addLog env id files) = files.map (·.Dir) := by
  induction files with
  | nil => rfl
  | cons i rest ih => simp [addLog, addedDirs, ih]

theorem addedDirs_closeLog (w : Option Watcher) : addedDirs (closeLog w) = [] := by
  cases w <;> rfl

theorem count_addLog (env : Env) (id : Nat) (files : List ImportedFile) :
    (addLog env id files).count Effect.signalUSR1 = 0 ∧
      (addLog env id files).count Effect.afterFunc = 0 ∧
      (addLog env id files).count Effect.spawnLoop = 0 := by
  induction files with
  | nil => simp [addLog]
  | cons i rest ih => simp [addLog, List.count_cons, ih]

theorem count_closeLog (w : Option Watcher) :
    (closeLog w).count Effect.signalUSR1 = 0 ∧ (closeLog w).count Effect.afterFunc = 0 ∧
      (closeLog w).count Effect.spawnLoop = 0 := by
  cases w <;> simp [closeLog, List.count_cons]

theorem load_add_error (env : Env) (serverType : String) (s : State) (input : Input)
    (e : GoError) (h : s.active = true)
    (hl : emulateCaddyfileLoading env env.confFlag serverType = (some input, none))
    (hp : (env.parse input.path input.body).2 = none)
    (hr : (recorded env input).2 = none)
    (hw : env.newWatcher = none)
    (ha : firstAddError env [] (recorded env input).1 = some e) :
    load env serverType s =
      ((none, some e),
        { afterParse env s input with
          nextWatcherId := s.nextWatcherId + 1
          watcher := some ⟨s.nextWatcherId,
            ((recorded env input).1.take (addedCount env [] (recorded env input).1)).map (·.Dir),
            false⟩
          log := s.log ++ closeLog s.watcher ++ [Effect.newWatcher s.nextWatcherId] ++
            addLog env s.nextWatcherId
              ((recorded env input).1.take (addCalls env [] (recorded env input).1)) }) := by
  rw [load_installs env serverType s input h hl hp hr hw, addWatches_eq]
  simp only [ha, stopOldWatcher_eq, List.nil_append]
  rfl

theorem load_success (env : Env) (serverType : String) (s : State) (input : Input)
    (h : s.active = true)
    (hl : emulateCaddyfileLoading env env.confFlag serverType = (some input, none))
    (hp : (env.parse input.path input.body).2 = none)
    (hr : (recorded env input).2 = none)
    (hw : env.newWatcher = none)
    (ha : firstAddError env [] (recorded env input).1 = none) :
    load env serverType s =
      ((some input, none),
        { afterParse env s input with
          nextWatcherId := s.nextWatcherId + 1
          watcher := some ⟨s.nextWatcherId, (recorded env input).1.map (·.Dir), false⟩
          log := s.log ++ closeLog s.watcher ++ [Effect.newWatcher s.nextWatcherId] ++
            addLog env s.nextWatcherId (recorded env input).1 ++ [Effect.spawnLoop] }) := by
  rw [load_installs env serverType s input h hl hp hr hw, addWatches_eq]
  simp only [ha, stopOldWatcher_eq, List.nil_append, (firstAddError_none env [] _ ha).1,
    (firstAddError_none env [] _ ha).2, List.take_length]
  rfl

/-! ## C8: activation off -/

/-- C8. When the flag `active` is false, `load` returns `(nil, nil)` and the whole state
is unchanged: `importedFiles`, `reportImportError`, the watcher, the debouncer, the
timers and the log (no watcher created, no directory added, no loop spawned). -/
theorem C8_inactive_noop (env : Env) (serverType : String) (s : State)
    (h : s.active = false) :
    load env serverType s = ((none, none), s) :=
  load_inactive env serverType s h

/-- Witness of C8: the first `load` of a process started without `-watch-conf-changes`. -/
theorem C8_inactive_witness :
    (initState false).active = false ∧
      load (okEnv []) "http" (initState false) = ((none, none), initState false) :=
  ⟨rfl, C8_inactive_noop (okEnv []) "http" (initState false) rfl⟩

/-! ## C5: parse failure -/

/-- C5. When `load` reaches `Parse` (the flag is on and a Caddyfile was found) and `Parse`
returns the error `e`, `load` returns `(nil, e)`; the watcher variable is the same as
before (so it is still nil on the first build), and nothing is appended to the log: no
`Close`, no `NewWatcher`, no `Add`, no goroutine. -/
theorem C5_parse_failure (env : Env) (serverType : String) (s : State) (input : Input)
    (e : GoError) (hactive : s.active = true)
    (hfound : emulateCaddyfileLoading env env.confFlag serverType = (some input, none))
    (hparse : (env.parse input.path input.body).2 = some e) :
    (load env serverType s).1 = (none, some e) ∧
      (load env serverType s).2.watcher = s.watcher ∧
      (load env serverType s).2.nextWatcherId = s.nextWatcherId ∧
      (load env serverType s).2.log = s.log ∧
      (s.watcher = none → (load env serverType s).2.watcher = none) := by
  rw [load_parse_error env serverType s input e hactive hfound hparse]
  exact ⟨rfl, rfl, rfl, rfl, fun h => h⟩

/-- Witness of C5: the first build fails with a syntax error; the error comes back
unchanged and the watcher is still nil. -/
theorem C5_parse_failure_witness :
    (initState true).active = true ∧
      emulateCaddyfileLoading (parseErrorEnv []) (parseErrorEnv []).confFlag "http" =
        (some rootInput, none) ∧
      ((parseErrorEnv []).parse rootInput.path rootInput.body).2 = some ⟨"syntax error"⟩ ∧
      (load (parseErrorEnv []) "http" (initState true)).1 = (none, some ⟨"syntax error"⟩) ∧
      (load (parseErrorEnv []) "http" (initState true)).2.watcher = none ∧
      (load (parseErrorEnv []) "http" (initState true)).2.log = [] := by
  have h := C5_parse_failure (parseErrorEnv []) "http" (initState true) rootInput
    ⟨"syntax error"⟩ rfl rfl rfl
  exact ⟨rfl, rfl, rfl, h.1, h.2.2.2.2 rfl, h.2.2.2.1⟩

theorem foldl_recordStep (env : Env) (paths : List String) (acc : List ImportedFile)
    (e0 : Option GoError) :
    paths.foldl (recordStep env) (acc, e0) =
      ((resolvedFiles env paths).foldl addFile acc,
        match lastResolutionError env paths with
        | some e => some e
        | none => e0) := by
  induction paths generalizing acc e0 with
  | nil => rfl
  | cons p rest ih =>
    simp only [List.foldl_cons, recordStep, resolvedFiles, lastResolutionError]
    cases h : env.abs p with
    | error e =>
      simp only [ih]
      cases lastResolutionError env rest <;> rfl
    | ok a =>
      simp only [ih, List.foldl_cons]
      cases lastResolutionError env rest <;> rfl

theorem recorded_eq (env : Env) (input : Input) :
    recorded env input =
      (removeLaterDuplicates
          (resolvedFiles env (input.path :: (env.parse input.path input.body).1)),
        lastResolutionError env (input.path :: (env.parse input.path input.body).1)) := by
  unfold recorded
  rw [foldl_recordStep, foldl_addFile_nil]
  cases lastResolutionError env (input.path :: (env.parse input.path input.body).1) <;> rfl

theorem load_no_error (env : Env) (serverType : String) (s : State) (input : Input)
    (h : s.active = true)
    (hl : emulateCaddyfileLoading env env.confFlag serverType = (some input, none))
    (hok : (load env serverType s).1.2 = none) :
    (env.parse input.path input.body).2 = none ∧ (recorded env input).2 = none ∧
      env.newWatcher = none ∧ firstAddError env [] (recorded env input).1 = none := by
  cases hp : (env.parse input.path input.body).2 with
  | some e => rw [load_parse_error env serverType s input e h hl hp] at hok; simp at hok
  | none =>
    cases hr : (recorded env input).2 with
    | some e => rw [load_deferred_error env serverType s input e h hl hp hr] at hok; simp at hok
    | none =>
      cases hw : env.newWatcher with
      | some e =>
        rw [load_newWatcher_error env serverType s input e h hl hp hr hw] at hok; simp at hok
      | none =>
        cases ha : firstAddError env [] (recorded env input).1 with
        | some e =>
          rw [load_add_error env serverType s input e h hl hp hr hw ha] at hok; simp at hok
        | none => exact ⟨rfl, rfl, rfl, rfl⟩

/-! ## C4: watch installation -/

/-- C4, as stated, fails: the Caddyfile `/etc/app/Caddyfile` imports `/etc/app/sites.conf`;
the load succeeds, records two files of the same directory, and passes `/etc/app` to
`watcher.Add` twice. -/
theorem C4_shared_directory_counterexample :
    (load (okEnv ["/etc/app/sites.conf"]) "http" (initState true)).1 =
        (some rootInput, none) ∧
      (load (okEnv ["/etc/app/sites.conf"]) "http" (initState true)).2.importedFiles =
        [⟨"/etc/app", "Caddyfile"⟩, ⟨"/etc/app", "sites.conf"⟩] ∧
      addedDirs (load (okEnv ["/etc/app/sites.conf"]) "http" (initState true)).2.log =
        ["/etc/app", "/etc/app"] ∧
      ¬ (addedDirs
          (load (okEnv ["/etc/app/sites.conf"]) "http" (initState true)).2.log).Nodup := by
  decide

/-- C4, amended. A load that builds a generation (flag on, Caddyfile found, no error
returned) returns the input found and passes to `watcher.Add` of the new watcher exactly
the `Dir` of every recorded file, in file order, one call per recorded file.  So the
directories passed are exactly the directories of the recorded files, and a directory is
passed as many times as there are recorded files in it (the recorded files themselves are
pairwise distinct). -/
theorem C4_watch_installation (env : Env) (serverType : String) (s : State) (input : Input)
    (hactive : s.active = true)
    (hfound : emulateCaddyfileLoading env env.confFlag serverType = (some input, none))
    (hok : (load env serverType s).1.2 = none) :
    (load env serverType s).1 = (some input, none) ∧
      addedDirs (load env serverType s).2.log =
        addedDirs s.log ++ (load env serverType s).2.importedFiles.map (·.Dir) ∧
      (load env serverType s).2.watcher =
        some ⟨s.nextWatcherId, (load env serverType s).2.importedFiles.map (·.Dir), false⟩ ∧
      (∀ d, d ∈ (load env serverType s).2.importedFiles.map (·.Dir) ↔
        ∃ f ∈ (load env serverType s).2.importedFiles, f.Dir = d) ∧
      (∀ d, ((load env serverType s).2.importedFiles.map (·.Dir)).count d =
        (load env serverType s).2.importedFiles.countP (fun f => f.Dir = d)) ∧
      (load env serverType s).2.importedFiles.Nodup := by
  obtain ⟨hp, hr, hw, ha⟩ := load_no_error env serverType s input hactive hfound hok
  rw [load_success env serverType s input hactive hfound hp hr hw ha]
  refine ⟨rfl, ?_, rfl, ?_, ?_, ?_⟩
  · simp [afterParse, addedDirs_append, addedDirs_addLog, addedDirs_closeLog, addedDirs]
  · intro d
    exact List.mem_map
  · intro d
    simp only [afterParse]
    rw [List.count_eq_countP, List.countP_map]
    apply List.countP_congr
    intro f _
    simp
  · simp only [afterParse]
    rw [recorded_eq]
    exact nodup_removeLaterDuplicates _

/-- Witness of C4 (amended): the load of a Caddyfile that imports a file of its own
directory and a file of another one. -/
theorem C4_watch_installation_witness :
    (initState true).active = true ∧
      emulateCaddyfileLoading (okEnv ["/etc/app/sites.conf", "/etc/tls/certs.conf"])
          (okEnv ["/etc/app/sites.conf", "/etc/tls/certs.conf"]).confFlag "http" =
        (some rootInput, none) ∧
      (load (okEnv ["/etc/app/sites.conf", "/etc/tls/certs.conf"]) "http"
          (initState true)).1.2 = none ∧
      addedDirs (load (okEnv ["/etc/app/sites.conf", "/etc/tls/certs.conf"]) "http"
          (initState true)).2.log =
        addedDirs (initState true).log ++
          (load (okEnv ["/etc/app/sites.conf", "/etc/tls/certs.conf"]) "http"
            (initState true)).2.importedFiles.map (·.Dir) ∧
      (load (okEnv ["/etc/app/sites.conf", "/etc/tls/certs.conf"]) "http"
          (initState true)).2.importedFiles.map (·.Dir) =
        ["/etc/app", "/etc/app", "/etc/tls"] :=
  ⟨rfl, rfl, by decide,
    (C4_watch_installation (okEnv ["/etc/app/sites.conf", "/etc/tls/certs.conf"]) "http"
      (initState true) rootInput rfl rfl (by decide)).2.1, by decide⟩

/-! ## C6: which error `load` returns -/

theorem firstResolutionError_none (env : Env) (paths : List String)
    (h : firstResolutionError env paths = none) : lastResolutionError env paths = none := by
  induction paths with
  | nil => rfl
  | cons p rest ih =>
    unfold firstResolutionError at h
    unfold lastResolutionError
    cases ha : env.abs p with
    | error e => simp [ha] at h
    | ok a =>
      simp only [ha] at h
      simp [ih h]

/-- C6, as stated, fails in both of its examples.  First: `os.Getwd` fails, so the
resolution of the root path `Caddyfile` fails, and `Parse` then fails with a syntax
error: the earliest failing step raised the resolution error, `load` returns the syntax
error.  Second: the resolutions of the root and of a later import fail with different
errors and `Parse` succeeds: the earliest failing step raised the root's error, `load`
returns the import's. -/
theorem C6_first_error_counterexample :
    (earliestError noCwdParseErrorEnv "http" (initState true) =
        some ⟨"getwd: no such file or directory"⟩ ∧
      (load noCwdParseErrorEnv "http" (initState true)).1 = (none, some ⟨"syntax error"⟩) ∧
      (load noCwdParseErrorEnv "http" (initState true)).1.2 ≠
        earliestError noCwdParseErrorEnv "http" (initState true)) ∧
    (earliestError twoResolutionErrorsEnv "http" (initState true) =
        some ⟨"getwd: permission denied"⟩ ∧
      (load twoResolutionErrorsEnv "http" (initState true)).1 =
        (none, some ⟨"getwd: no such file or directory"⟩) ∧
      (load twoResolutionErrorsEnv "http" (initState true)).1.2 ≠
        earliestError twoResolutionErrorsEnv "http" (initState true)) := by
  decide

/-- C6, amended. `load` returns the error of the first failing check in the order of its
own checks: the loaders, the return value of `Parse`, the deferred `reportImportError`,
`NewWatcher`, the `Add` calls.  Path-resolution errors are deferred: they are looked at
only after `Parse` has succeeded, and `reportImportError` then holds the error of the last
resolution that failed.  Hence: when no path resolution fails, `load` returns the error of
the earliest failing step (none when no step fails); when `Parse` fails, `load` returns
the error of `Parse`, also after a failed resolution; when `Parse` succeeds and some
resolution failed, `load` returns the error of the last failed resolution. -/
theorem C6_error_order (env : Env) (serverType : String) (s : State) :
    (firstResolutionError env (reportedPaths env serverType s) = none →
        (load env serverType s).1.2 = earliestError env serverType s) ∧
      (∀ input e, s.active = true →
        emulateCaddyfileLoading env env.confFlag serverType = (some input, none) →
        (env.parse input.path input.body).2 = some e →
        (load env serverType s).1 = (none, some e)) ∧
      (∀ input e, s.active = true →
        emulateCaddyfileLoading env env.confFlag serverType = (some input, none) →
        (env.parse input.path input.body).2 = none →
        lastResolutionError env (input.path :: (env.parse input.path input.body).1) = some e →
        (load env serverType s).1 = (none, some e)) := by
  refine ⟨?_, ?_, ?_⟩
  · intro hres
    cases hact : s.active with
    | false => simp [load_inactive env serverType s hact, earliestError, hact]
    | true =>
      rcases hl : emulateCaddyfileLoading env env.confFlag serverType with ⟨x, err⟩
      cases err with
      | some e =>
        rw [load_loader_error env serverType s x e hact hl]
        simp [earliestError, hact, hl]
      | none =>
        cases x with
        | none =>
          rw [load_no_caddyfile env serverType s hact hl]
          simp [earliestError, hact, hl]
        | some input =>
          simp only [reportedPaths, hact, hl] at hres
          have hres' : firstResolutionError env
              (input.path :: (env.parse input.path input.body).1) = none := by
            simpa using hres
          have hrec : (recorded env input).2 = none := by
            rw [recorded_eq]
            exact firstResolutionError_none env _ hres'
          simp only [earliestError, hact, hl, hres']
          cases hp : (env.parse input.path input.body).2 with
          | some e => rw [load_parse_error env serverType s input e hact hl hp]; simp
          | none =>
            cases hw : env.newWatcher with
            | some e =>
              rw [load_newWatcher_error env serverType s input e hact hl hp hrec hw]; simp
            | none =>
              cases ha : firstAddError env [] (recorded env input).1 with
              | some e =>
                rw [load_add_error env serverType s input e hact hl hp hrec hw ha]; simp
              | none =>
                rw [load_success env serverType s input hact hl hp hrec hw ha]; simp
  · intro input e hact hl hp
    rw [load_parse_error env serverType s input e hact hl hp]
  · intro input e hact hl hp hlast
    have hrec : (recorded env input).2 = some e := by
      rw [recorded_eq]; exact hlast
    rw [load_deferred_error env serverType s input e hact hl hp hrec]

/-- Witness of C6 (amended): `NewWatcher` fails and nothing before it does; `Parse` fails
after a failed resolution; two resolutions fail and `Parse` succeeds. -/
theorem C6_error_order_witness :
    (firstResolutionError (watcherLimitEnv [])
          (reportedPaths (watcherLimitEnv []) "http" (initState true)) = none ∧
        (load (watcherLimitEnv []) "http" (initState true)).1.2 =
          earliestError (watcherLimitEnv []) "http" (initState true) ∧
        earliestError (watcherLimitEnv []) "http" (initState true) =
          some ⟨"too many open files"⟩) ∧
      (load noCwdParseErrorEnv "http" (initState true)).1 = (none, some ⟨"syntax error"⟩) ∧
      (load twoResolutionErrorsEnv "http" (initState true)).1 =
        (none, some ⟨"getwd: no such file or directory"⟩) :=
  ⟨⟨by decide,
      (C6_error_order (watcherLimitEnv []) "http" (initState true)).1 (by decide),
      by decide⟩,
    (C6_error_order noCwdParseErrorEnv "http" (initState true)).2.1 relativeInput
      ⟨"syntax error"⟩ rfl rfl rfl,
    (C6_error_order twoResolutionErrorsEnv "http" (initState true)).2.2 relativeInput
      ⟨"getwd: no such file or directory"⟩ rfl rfl rfl (by decide)⟩

/-! ## C7: what a failed `load` leaves behind -/

theorem load_effect (env : Env) (serverType : String) (s : State) :
    (load env serverType s).2.debouncer = s.debouncer ∧
      (load env serverType s).2.timers = s.timers ∧
      (load env serverType s).2.active = s.active ∧
      ∃ delta, (load env serverType s).2.log = s.log ++ delta ∧
        delta.count Effect.signalUSR1 = 0 ∧ delta.count Effect.afterFunc = 0 ∧
        delta.count Effect.spawnLoop = if buildsGeneration env serverType s then 1 else 0 := by
  cases hact : s.active with
  | false =>
    rw [load_inactive env serverType s hact]
    exact ⟨rfl, rfl, hact, [], by simp, rfl, rfl, by simp [buildsGeneration, hact]⟩
  | true =>
    rcases hl : emulateCaddyfileLoading env env.confFlag serverType with ⟨x, err⟩
    cases err with
    | some e =>
      rw [load_loader_error env serverType s x e hact hl]
      exact ⟨rfl, rfl, hact, [], by simp, rfl, rfl, by simp [buildsGeneration, hact, hl]⟩
    | none =>
      cases x with
      | none =>
        rw [load_no_caddyfile env serverType s hact hl]
        exact ⟨rfl, rfl, hact, [], by simp, rfl, rfl, by simp [buildsGeneration, hact, hl]⟩
      | some input =>
        have hb : buildsGeneration env serverType s =
            decide ((load env serverType s).1.2 = none) := by
          simp [buildsGeneration, hact, hl]
        rw [hb]
        cases hp : (env.parse input.path input.body).2 with
        | some e =>
          rw [load_parse_error env serverType s input e hact hl hp]
          exact ⟨rfl, rfl, hact, [], by simp [afterParse], rfl, rfl, by simp⟩
        | none =>
          cases hr : (recorded env input).2 with
          | some e =>
            rw [load_deferred_error env serverType s input e hact hl hp hr]
            exact ⟨rfl, rfl, hact, [], by simp [afterParse], rfl, rfl, by simp⟩
          | none =>
            cases hw : env.newWatcher with
            | some e =>
              rw [load_newWatcher_error env serverType s input e hact hl hp hr hw]
              refine ⟨(stopOldWatcher_frame _).2.2.2.2.1, (stopOldWatcher_frame _).2.2.2.2.2.1,
                ?_, closeLog s.watcher, ?_, (count_closeLog _).1, (count_closeLog _).2.1, ?_⟩
              · exact ((stopOldWatcher_frame _).1).trans hact
              · exact stopOldWatcher_log _
              · simp [(count_closeLog s.watcher).2.2]
            | none =>
              cases ha : firstAddError env [] (recorded env input).1 with
              | some e =>
                rw [load_add_error env serverType s input e hact hl hp hr hw ha]
                refine ⟨rfl, rfl, hact, closeLog s.watcher ++
                  [Effect.newWatcher s.nextWatcherId] ++ addLog env s.nextWatcherId
                    ((recorded env input).1.take (addCalls env [] (recorded env input).1)),
                  by simp, ?_, ?_, ?_⟩
                · simp [List.count_append, List.count_cons, (count_closeLog s.watcher).1,
                    (count_addLog env s.nextWatcherId _).1]
                · simp [List.count_append, List.count_cons, (count_closeLog s.watcher).2.1,
                    (count_addLog env s.nextWatcherId _).2.1]
                · simp [List.count_append, List.count_cons, (count_closeLog s.watcher).2.2,
                    (count_addLog env s.nextWatcherId _).2.2]
              | none =>
                rw [load_success env serverType s input hact hl hp hr hw ha]
                refine ⟨rfl, rfl, hact, closeLog s.watcher ++
                  [Effect.newWatcher s.nextWatcherId] ++
                  addLog env s.nextWatcherId (recorded env input).1 ++ [Effect.spawnLoop],
                  by simp, ?_, ?_, ?_⟩
                · simp [List.count_append, List.count_cons, (count_closeLog s.watcher).1,
                    (count_addLog env s.nextWatcherId _).1]
                · simp [List.count_append, List.count_cons, (count_closeLog s.watcher).2.1,
                    (count_addLog env s.nextWatcherId _).2.1]
                · simp [List.count_append, List.count_cons, (count_closeLog s.watcher).2.2,
                    (count_addLog env s.nextWatcherId _).2.2]

theorem reloadCalls_println (s : State) (line : String) :
    reloadCalls (println s line) = reloadCalls s := by
  simp [reloadCalls, println, List.count_append, List.count_cons]

theorem timerFired_eq (s : State) (h : s.timers ≠ 0) :
    ∃ s', timerFired s = some s' ∧ s'.debouncer = { s.debouncer with Blind := false } ∧
      s'.timers = s.timers - 1 ∧ reloadCalls s' = reloadCalls s + 1 ∧
      s'.importedFiles = s.importedFiles := by
  refine ⟨doReload (println
      { s with debouncer := { s.debouncer with Blind := false }, timers := s.timers - 1 }
      ("File changed: " ++ s.debouncer.Reason)), ?_, rfl, rfl, ?_, rfl⟩
  · simp only [timerFired, h, if_false]
  · simp [reloadCalls, doReload, println, List.count_append, List.count_cons]

/-- What a step does to the debouncer, the outstanding timers and the number of
`doReload` calls: nothing, or Idle to Blind with one new timer, or a timer fires. -/
theorem step_cases (s s' : State) (a : Step) (h : step s a = some s') :
    (s'.debouncer = s.debouncer ∧ s'.timers = s.timers ∧ reloadCalls s' = reloadCalls s) ∨
      (s.debouncer.Blind = false ∧ s'.debouncer.Blind = true ∧ s'.timers = s.timers + 1 ∧
        reloadCalls s' = reloadCalls s) ∨
      (s.timers ≠ 0 ∧ s'.debouncer.Blind = false ∧ s'.timers = s.timers - 1 ∧
        reloadCalls s' = reloadCalls s + 1) := by
  have htrig : ∀ name, s' = triggerDebouncer s name →
      (s'.debouncer = s.debouncer ∧ s'.timers = s.timers ∧ reloadCalls s' = reloadCalls s) ∨
      (s.debouncer.Blind = false ∧ s'.debouncer.Blind = true ∧ s'.timers = s.timers + 1 ∧
        reloadCalls s' = reloadCalls s) ∨
      (s.timers ≠ 0 ∧ s'.debouncer.Blind = false ∧ s'.timers = s.timers - 1 ∧
        reloadCalls s' = reloadCalls s + 1) := by
    intro name hs
    cases hb : s.debouncer.Blind with
    | true => rw [hs, triggerDebouncer_blind s name hb]; exact Or.inl ⟨rfl, rfl, rfl⟩
    | false =>
      rw [hs, triggerDebouncer_idle s name hb]
      refine Or.inr (Or.inl ⟨rfl, rfl, rfl, ?_⟩)
      simp [reloadCalls, List.count_append, List.count_cons]
  cases a with
  | event env name =>
    simp only [step, Option.some.injEq] at h
    cases hb : s.debouncer.Blind with
    | true =>
      rw [loopEvent_blind env s name hb] at h
      subst h; exact Or.inl ⟨rfl, rfl, rfl⟩
    | false =>
      by_cases hm : matchesFileSet env s.importedFiles name
      · rw [loopEvent_match env s name hb hm] at h
        have := htrig name h.symm
        rwa [hb] at this
      · have hn := loopEvent_nomatch env s name hb hm
        rw [h] at hn
        exact Or.inl ⟨hn.1, hn.2.1, hn.2.2.2.2⟩
  | error err =>
    simp only [step, Option.some.injEq] at h
    subst h
    cases err with
    | none => exact Or.inl ⟨rfl, rfl, rfl⟩
    | some e => exact Or.inl ⟨rfl, rfl, reloadCalls_println _ _⟩
  | trigger filename =>
    simp only [step, Option.some.injEq] at h
    exact htrig filename h.symm
  | fire =>
    simp only [step] at h
    by_cases ht : s.timers = 0
    · simp [timerFired, ht] at h
    · obtain ⟨t, h1, h2, h3, h4, _⟩ := timerFired_eq s ht
      rw [h1] at h
      simp only [Option.some.injEq] at h
      subst h
      exact Or.inr (Or.inr ⟨ht, by rw [h2], h3, h4⟩)
  | load env serverType =>
    simp only [step, Option.some.injEq] at h
    subst h
    obtain ⟨h1, h2, _, delta, hlog, hsig, _, _⟩ := load_effect env serverType s
    refine Or.inl ⟨h1, h2, ?_⟩
    unfold reloadCalls
    rw [hlog, List.count_append, hsig]
    rfl

/-- In every run the `doReload` calls plus the outstanding timers grow by the number of
Idle-to-Blind transitions. -/
theorem run_balance (trace : List Step) (s s' : State) (h : run s trace = some s') :
    reloadCalls s' + s'.timers = reloadCalls s + s.timers + idleToBlind s trace := by
  induction trace generalizing s with
  | nil =>
    simp only [run, Option.some.injEq] at h
    subst h; rfl
  | cons a rest ih =>
    simp only [run, idleToBlind] at h ⊢
    cases hs : step s a with
    | none => simp [hs] at h
    | some t =>
      simp only [hs] at h ⊢
      have := ih t h
      rcases step_cases s t a hs with ⟨h1, h2, h3⟩ | ⟨h1, h2, h3, h4⟩ | ⟨h1, h2, h3, h4⟩
      · have : ¬ (s.debouncer.Blind = false ∧ t.debouncer.Blind = true) := by
          rw [h1]; intro ⟨a, b⟩; rw [a] at b; exact Bool.false_ne_true b
        simp only [this, if_false]
        omega
      · simp only [h1, h2, and_self, if_true]
        omega
      · have : ¬ (s.debouncer.Blind = false ∧ t.debouncer.Blind = true) := by
          intro ⟨_, b⟩; rw [h2] at b; exact Bool.false_ne_true b
        simp only [this, if_false]
        omega

/-- Invariant of the debouncer: a timer is outstanding exactly when `Blind` is true, and
then exactly one. -/
theorem run_invariant (trace : List Step) (s s' : State)
    (hinv : s.timers = if s.debouncer.Blind then 1 else 0) (h : run s trace = some s') :
    s'.timers = if s'.debouncer.Blind then 1 else 0 := by
  induction trace generalizing s with
  | nil =>
    simp only [run, Option.some.injEq] at h
    subst h; exact hinv
  | cons a rest ih =>
    simp only [run] at h
    cases hs : step s a with
    | none => simp [hs] at h
    | some t =>
      simp only [hs] at h
      apply ih t _ h
      rcases step_cases s t a hs with ⟨h1, h2, _⟩ | ⟨h1, h2, h3, _⟩ | ⟨h1, h2, h3, _⟩
      · rw [h1, h2]; exact hinv
      · rw [h3, hinv, h1, h2]; simp
      · rw [h3, h2, hinv]
        cases hb : s.debouncer.Blind with
        | true => simp
        | false => rw [hinv, hb] at h1; simp at h1

theorem foldl_triggerDebouncer_blind (names : List String) (s : State)
    (h : s.debouncer.Blind = true) : names.foldl triggerDebouncer s = s := by
  induction names with
  | nil => rfl
  | cons n rest ih => rw [List.foldl_cons, triggerDebouncer_blind s n h, ih]

theorem run_reloadCalls_mono (trace : List Step) (s s' : State) (h : run s trace = some s') :
    reloadCalls s ≤ reloadCalls s' := by
  induction trace generalizing s with
  | nil =>
    simp only [run, Option.some.injEq] at h
    subst h; exact Nat.le_refl _
  | cons a rest ih =>
    simp only [run] at h
    cases hs : step s a with
    | none => simp [hs] at h
    | some t =>
      simp only [hs] at h
      have := ih t h
      rcases step_cases s t a hs with ⟨_, _, h3⟩ | ⟨_, _, _, h4⟩ | ⟨_, _, _, h4⟩ <;> omega

/-- C2. Starting from the Idle state with no timer outstanding: any `N ≥ 1` matching
events given to `triggerDebouncer` before the timer fires, followed by the timer firing,
produce exactly one `doReload` call and leave the debouncer Idle; an event, the timer, a
second event and the timer produce exactly two; and over any trace of steps the number of
`doReload` calls made is the number of Idle-to-Blind transitions minus the (at most one)
timer still outstanding, that is the number of transitions whose timer has fired. -/
theorem C2_debounce_count (s : State) (hidle : s.debouncer.Blind = false)
    (htimers : s.timers = 0) :
    (∀ names : List String, 1 ≤ names.length →
        ∃ s', timerFired (names.foldl triggerDebouncer s) = some s' ∧
          reloadCalls s' = reloadCalls s + 1 ∧ s'.debouncer.Blind = false ∧ s'.timers = 0) ∧
      (∀ a b : String, ∃ s₁ s₂, timerFired (triggerDebouncer s a) = some s₁ ∧
          timerFired (triggerDebouncer s₁ b) = some s₂ ∧
          reloadCalls s₁ = reloadCalls s + 1 ∧ reloadCalls s₂ = reloadCalls s + 2) ∧
      (∀ (trace : List Step) (s' : State), run s trace = some s' →
          reloadCalls s' = reloadCalls s + (idleToBlind s trace - s'.timers) ∧
            s'.timers ≤ idleToBlind s trace ∧ s'.timers ≤ 1) := by
  have hone : ∀ (t : State) (a : String), t.debouncer.Blind = false → t.timers = 0 →
      ∃ t', timerFired (triggerDebouncer t a) = some t' ∧
        reloadCalls t' = reloadCalls t + 1 ∧ t'.debouncer.Blind = false ∧ t'.timers = 0 := by
    intro t a hb ht
    have hne : (triggerDebouncer t a).timers ≠ 0 := by
      rw [triggerDebouncer_idle t a hb]; simp
    obtain ⟨t', h1, h2, h3, h4, _⟩ := timerFired_eq (triggerDebouncer t a) hne
    refine ⟨t', h1, ?_, by rw [h2], ?_⟩
    · rw [h4, triggerDebouncer_idle t a hb]
      simp [reloadCalls, List.count_append, List.count_cons]
    · rw [h3, triggerDebouncer_idle t a hb]
      simp [ht]
  refine ⟨?_, ?_, ?_⟩
  · intro names hlen
    cases names with
    | nil => simp at hlen
    | cons n rest =>
      have hb : (triggerDebouncer s n).debouncer.Blind = true := by
        rw [triggerDebouncer_idle s n hidle]
      rw [List.foldl_cons, foldl_triggerDebouncer_blind rest _ hb]
      exact hone s n hidle htimers
  · intro a b
    obtain ⟨s₁, h1, h2, h3, h4⟩ := hone s a hidle htimers
    obtain ⟨s₂, k1, k2, _, _⟩ := hone s₁ b h3 h4
    exact ⟨s₁, s₂, h1, k1, h2, by rw [k2, h2]⟩
  · intro trace s' hrun
    have hbal := run_balance trace s s' hrun
    have hmono := run_reloadCalls_mono trace s s' hrun
    have hinv := run_invariant trace s s' (by rw [htimers, hidle]; rfl) hrun
    have hle : s'.timers ≤ 1 := by
      rw [hinv]; split <;> omega
    refine ⟨by omega, by omega, hle⟩

/-- Witness of C2: in the first generation, five events within one quiet window and the
timer give one `doReload` call; the trace `burstTrace` (two windows) gives two. -/
theorem C2_debounce_count_witness :
    firstGeneration.debouncer.Blind = false ∧ firstGeneration.timers = 0 ∧
      1 ≤ ["a", "b", "c", "d", "e"].length ∧
      (∃ s', timerFired (["a", "b", "c", "d", "e"].foldl triggerDebouncer firstGeneration) =
          some s' ∧
        reloadCalls s' = reloadCalls firstGeneration + 1 ∧ s'.debouncer.Blind = false ∧
        s'.timers = 0) ∧
      run firstGeneration burstTrace = some afterBurst ∧
      idleToBlind firstGeneration burstTrace = 2 ∧
      reloadCalls afterBurst =
        reloadCalls firstGeneration + (idleToBlind firstGeneration burstTrace -
          afterBurst.timers) :=
  ⟨by decide, by decide, by decide,
    (C2_debounce_count firstGeneration (by decide) (by decide)).1 ["a", "b", "c", "d", "e"]
      (by decide),
    by decide, by decide,
    ((C2_debounce_count firstGeneration (by decide) (by decide)).2.2 burstTrace afterBurst
      (by decide)).1⟩

/-- While `Blind` is true, a step other than the timer firing keeps the debouncer and the
timers and schedules no timer. -/
theorem step_blind (s s' : State) (a : Step) (hb : s.debouncer.Blind = true)
    (ha : a ≠ Step.fire) (h : step s a = some s') :
    s'.debouncer = s.debouncer ∧ s'.timers = s.timers ∧
      s'.log.count Effect.afterFunc = s.log.count Effect.afterFunc := by
  cases a with
  | event env name =>
    simp only [step, Option.some.injEq] at h
    rw [loopEvent_blind env s name hb] at h
    subst h; exact ⟨rfl, rfl, rfl⟩
  | error err =>
    simp only [step, Option.some.injEq] at h
    subst h
    cases err with
    | none => exact ⟨rfl, rfl, rfl⟩
    | some e => exact ⟨rfl, rfl, by simp [loopError, println, List.count_append, List.count_cons]⟩
  | trigger filename =>
    simp only [step, Option.some.injEq] at h
    rw [triggerDebouncer_blind s filename hb] at h
    subst h; exact ⟨rfl, rfl, rfl⟩
  | fire => exact absurd rfl ha
  | load env serverType =>
    simp only [step, Option.some.injEq] at h
    subst h
    obtain ⟨h1, h2, _, delta, hlog, _, hafter, _⟩ := load_effect env serverType s
    refine ⟨h1, h2, ?_⟩
    rw [hlog, List.count_append, hafter]
    rfl

/-- A quiet window: as long as the timer does not fire, every trace of steps can run and
keeps `Blind`, `Reason` and the one timer. -/
theorem run_blind (rest : List Step) (s : State) (hb : s.debouncer.Blind = true)
    (hrest : ∀ a ∈ rest, a ≠ Step.fire) :
    ∃ s', run s rest = some s' ∧ s'.debouncer = s.debouncer ∧ s'.timers = s.timers ∧
      s'.log.count Effect.afterFunc = s.log.count Effect.afterFunc := by
  induction rest generalizing s with
  | nil => exact ⟨s, rfl, rfl, rfl, rfl⟩
  | cons a rest ih =>
    have ha : a ≠ Step.fire := hrest a (List.mem_cons_self a rest)
    have hsome : ∃ t, step s a = some t := by
      cases a with
      | fire => exact absurd rfl ha
      | event env name => exact ⟨_, rfl⟩
      | error err => exact ⟨_, rfl⟩
      | trigger filename => exact ⟨_, rfl⟩
      | load env serverType => exact ⟨_, rfl⟩
    obtain ⟨t, ht⟩ := hsome
    obtain ⟨h1, h2, h3⟩ := step_blind s t a hb ha ht
    obtain ⟨s', k0, k1, k2, k3⟩ := ih t (by rw [h1]; exact hb)
      (fun b hbm => hrest b (List.mem_cons_of_mem a hbm))
    refine ⟨s', ?_, by rw [k1, h1], by rw [k2, h2], by rw [k3, h3]⟩
    simp only [run, ht]
    exact k0

/-- C9. In every state reachable from an Idle state without a timer, by any interleaving
of events, timer firings and loads: at most one quiet-window timer is outstanding; one is
outstanding exactly when `Blind` is true; while `Blind` is true an event step
(`onFilechangeEventReceived`, through the loop or directly, or `triggerDebouncer`, with
any filename) leaves the whole state unchanged, so it schedules no timer and keeps `Blind`
and `Reason`; while `Blind` is true every trace of steps without a timer firing can run,
schedules no timer and keeps `Blind` and `Reason`; and while `Blind` is false
`triggerDebouncer` makes its filename the `Reason` and schedules the one timer. -/
theorem C9_debouncer_invariant (s₀ s : State) (trace : List Step)
    (hidle : s₀.debouncer.Blind = false) (htimers : s₀.timers = 0)
    (hrun : run s₀ trace = some s) :
    s.timers ≤ 1 ∧
      (0 < s.timers ↔ s.debouncer.Blind = true) ∧
      (s.debouncer.Blind = true → ∀ (env : Env) (name : String),
        loopEvent env s name = s ∧ onFilechangeEventReceived env s name = s ∧
          triggerDebouncer s name = s) ∧
      (s.debouncer.Blind = true → ∀ rest : List Step, (∀ a ∈ rest, a ≠ Step.fire) →
        ∃ s', run s rest = some s' ∧ s'.debouncer = s.debouncer ∧ s'.timers = s.timers ∧
          s'.log.count Effect.afterFunc = s.log.count Effect.afterFunc) ∧
      (s.debouncer.Blind = false → ∀ name : String,
        (triggerDebouncer s name).debouncer = ⟨true, name⟩ ∧
          (triggerDebouncer s name).timers = 1 ∧
          (triggerDebouncer s name).log = s.log ++ [Effect.afterFunc]) := by
  have hinv := run_invariant trace s₀ s (by rw [htimers, hidle]; rfl) hrun
  refine ⟨?_, ?_, ?_, ?_, ?_⟩
  · rw [hinv]; split <;> omega
  · rw [hinv]
    cases s.debouncer.Blind <;> simp
  · intro hb env name
    exact ⟨loopEvent_blind env s name hb, onFilechangeEventReceived_blind env s name hb,
      triggerDebouncer_blind s name hb⟩
  · intro hb rest hrest
    exact run_blind rest s hb hrest
  · intro hb name
    rw [triggerDebouncer_idle s name hb]
    rw [hb] at hinv
    exact ⟨rfl, by simp [hinv], rfl⟩

/-- Witness of C9: after a load and a matching event the debouncer is Blind with the
event's name as Reason and one timer; the two further events of `openWindowTrace` changed
nothing, and a third one would not either. -/
theorem C9_debouncer_invariant_witness :
    (initState true).debouncer.Blind = false ∧ (initState true).timers = 0 ∧
      run (initState true) openWindowTrace = some inWindow ∧
      inWindow.debouncer = ⟨true, "/etc/app/sites.conf"⟩ ∧
      inWindow.timers = 1 ∧
      triggerDebouncer inWindow "/etc/app/Caddyfile" = inWindow :=
  ⟨rfl, rfl, by rfl, by decide, by decide,
    ((C9_debouncer_invariant (initState true) inWindow openWindowTrace rfl rfl (by rfl)).2.2.1
      (by decide) (okEnv []) "/etc/app/Caddyfile").2.2⟩

/-! ## C10: the event-consumption goroutines -/

end CaddyfileWatch
